import Mathlib

/-!
Shallow embedding of the LISA single-pass inference pipeline
(`inference_once.py`) and proofs of the specified properties.

Images are 8-bit RGB rasters; pixel values live in `ℕ` (the source keeps
them in `uint8`, and every arithmetic step below stays within 0..255, so no
wrap-around modelling is needed).  Tensor entries after normalization are
rationals: the float operations the source performs on them
(`(x - mean) / std`) are modelled exactly in `ℚ`; the claims proved about
them only concern structure (shape, placement of padding), never rounding
of the normalized values.  The uint8 casts that DO matter (the `* 0.5`
blends, which are exact in float64 and truncated on store) are modelled by
natural division by 2.
-/

namespace LISA

/-- An ingested image: `cv2.imread` + `COLOR_BGR2RGB` result, row-major
`H × W × 3`, `px i j c` is the value of channel `c` (0 = R) at row `i`,
column `j`. -/
structure Image where
  H : ℕ
  W : ℕ
  px : ℕ → ℕ → ℕ → ℕ

/-- A channel-first tensor (`torch` layout `C × H × W`) with rational
entries. -/
structure Tensor3 where
  C : ℕ
  H : ℕ
  W : ℕ
  data : ℕ → ℕ → ℕ → ℚ

/-- The SAM-path normalization means, `pixel_mean` default of
`preprocess` in the source: `[123.675, 116.28, 103.53]`. -/
def pixel_mean : ℕ → ℚ :=
  fun c => if c = 0 then 123675/1000 else if c = 1 then 11628/100 else 10353/100

/-- The SAM-path normalization standard deviations, `pixel_std` default of
`preprocess` in the source: `[58.395, 57.12, 57.375]`. -/
def pixel_std : ℕ → ℚ :=
  fun c => if c = 0 then 58395/1000 else if c = 1 then 5712/100 else 57375/1000

/-- `torch.nn.functional.pad x (0, padw, 0, padh)`: pad (or, for negative
amounts, crop) the right edge by `padw` and the bottom edge by `padh`.
The top-left corner is never touched, so surviving content keeps its
index. -/
def fpad2 (x : Tensor3) (padw padh : ℤ) : Tensor3 :=
  { C := x.C
    H := ((x.H : ℤ) + padh).toNat
    W := ((x.W : ℤ) + padw).toNat
    data := fun c i j => if i < x.H ∧ j < x.W then x.data c i j else 0 }

/-- The source's `preprocess`: normalize colors per channel with the fixed
constants, then `F.pad(x, (0, img_size - w, 0, img_size - h))`.  Default
arguments mirror the Python signature; in particular `img_size` defaults
to the constant `1024`. -/
def preprocess (x : Tensor3)
    (pixelMean : ℕ → ℚ := pixel_mean) (pixelStd : ℕ → ℚ := pixel_std)
    (img_size : ℕ := 1024) : Tensor3 :=
  let xn : Tensor3 :=
    { x with data := fun c i j => (x.data c i j - pixelMean c) / pixelStd c }
  fpad2 xn ((img_size : ℤ) - (xn.W : ℤ)) ((img_size : ℤ) - (xn.H : ℤ))

/-- Modelled from the spec: the Geometric Transform
(`ResizeLongestSide.apply_image` from `model.segment_anything`, whose code
is not part of this source tree) computes the scale factor
`s = T / max(h, w)` and scales both sides by `s`, rounding half up
(`⌊h·T/M + 1/2⌋ = (2·h·T + M) / (2·M)` in natural division, `M = max h w`).
Returns the new `(height, width)`. -/
def resizeShape (T h w : ℕ) : ℕ × ℕ :=
  let M := max h w
  ((2 * h * T + M) / (2 * M), (2 * w * T + M) / (2 * M))

/-- Modelled from the spec: `transform.apply_image` resizes the image so
its longest side equals the target `T` (shape given by `resizeShape`); the
interpolation kernel is the external transform's own policy and no claim
depends on the resampled values, so entries are taken by nearest index
remapping. -/
def resizeImage (T : ℕ) (img : Image) : Image :=
  let s := resizeShape T img.H img.W
  { H := s.1
    W := s.2
    px := fun i j c => img.px (i * img.H / s.1) (j * img.W / s.2) c }

/-- `torch.from_numpy(image).permute(2, 0, 1)`: the `H × W × 3` raster as a
channel-first `3 × H × W` tensor. -/
def toTensor (img : Image) : Tensor3 :=
  { C := 3, H := img.H, W := img.W, data := fun c i j => (img.px i j c : ℚ) }

/-- The SAM-path encoding performed in the main loop: resize the longest
side to the configured `--image_size`, convert to a channel-first tensor
and call `preprocess` — with `preprocess`'s own default `img_size`, since
the call site passes none. -/
def samEncode (imageSize : ℕ) (img : Image) : Tensor3 :=
  preprocess (toTensor (resizeImage imageSize img))

/-- `resize_list` entry recorded in the main loop: the shape of the
resized image. -/
def resizedShape (imageSize : ℕ) (img : Image) : ℕ × ℕ :=
  ((resizeImage imageSize img).H, (resizeImage imageSize img).W)

/-- The elementwise thresholding `pred_mask > 0` applied to a score. -/
def thresholdScore (q : ℚ) : Bool := decide (0 < q)

/-- The value bound to `pred_mask` in the main loop.  The two branches of
the source produce arrays of different dtype, which matters downstream:
`np.zeros((h, w), dtype=np.uint8)` on the no-mask path (an INTEGER array)
versus `pred_masks[0] > 0` on the mask path (a boolean array). -/
inductive PredMask where
  | uintZeros (h w : ℕ)
  | boolMask (h w : ℕ) (m : ℕ → ℕ → Bool)

/-- Logical dimensions of a `pred_mask` value. -/
def PredMask.dims : PredMask → ℕ × ℕ
  | .uintZeros h w => (h, w)
  | .boolMask h w _ => (h, w)

/-- The grid written to `masks/name.png`: `pred_mask * 255`. -/
def maskImage : PredMask → ℕ → ℕ → ℕ
  | .uintZeros _ _ => fun _ _ => 0
  | .boolMask _ _ m => fun i j => if m i j then 255 else 0

/-- The fixed highlight color `np.array([255, 0, 0])`, per channel. -/
def highlight : ℕ → ℕ := fun c => if c = 0 then 255 else 0

/-- One channel of the 0.5/0.5 alpha blend the source computes for masked
pixels: `image_np * 0.5 + 1 * highlight * 0.5`, evaluated in float64
(exact, both terms are multiples of 0.5) and truncated by the store into
the `uint8` array — i.e. `(v + highlight c) / 2` in natural division. -/
def blendHighlight (c v : ℕ) : ℕ := (v + highlight c) / 2

/-- The visualization built by
`save_img[pred_mask] = (image_np * 0.5 + pred_mask[:, :, None] * [255,0,0] * 0.5)[pred_mask]`.

For a BOOLEAN `pred_mask` this is boolean masking: every `True` pixel is
replaced by its blend with the highlight color, every other pixel is left
as in `image_np`.

For the INTEGER `pred_mask` of the no-mask branch (`np.zeros(..., uint8)`),
numpy performs integer fancy indexing instead: each of the `h·w` zero
indices selects row 0 of the target, so (whenever the mask is nonempty)
row 0 of `save_img` is assigned `(image_np * 0.5)[0]` — the mask term is
all zero — truncated to `uint8`, i.e. halved; all other rows are left
unchanged. -/
def buildVis (img : Image) : PredMask → Image
  | .boolMask _ _ m =>
      { img with
        px := fun i j c =>
          if m i j then blendHighlight c (img.px i j c) else img.px i j c }
  | .uintZeros h w =>
      { img with
        px := fun i j c =>
          if i = 0 ∧ 0 < h ∧ 0 < w then img.px 0 j c / 2 else img.px i j c }

/-- Failures that can abort one image's processing. -/
inductive PipeError where
  | invalidImage
  | multipleMask
  | modelFailure
deriving DecidableEq

/-- One predicted mask as received from `model.evaluate` (after the
`[0]` batch projection): a 2-D array of real-valued scores. -/
structure ScoreMask where
  h : ℕ
  w : ℕ
  scores : ℕ → ℕ → ℚ

/-- The three artifacts written for one image: `images/name.png`
(the ingested image), `masks/name.png` (rendered from `finalMask` by
`maskImage`) and `vis/name.png`. -/
structure Artifacts where
  imageOut : Image
  finalMask : PredMask
  visOut : Image

/-- The external model capability `model.evaluate`, injected: it receives
the SAM tensor, the resized shape and the original shape and yields the
list of predicted masks (or fails). -/
def EvalModel : Type :=
  Tensor3 → ℕ × ℕ → ℕ × ℕ → Except PipeError (List ScoreMask)

/-- The body of the main loop for a single image.  In order: the
Geometric Transform (modelled from the spec: zero-sized images fail with
`InvalidImageError`), the SAM-path encoding, the external model call,
the `assert len(pred_masks) <= 1` guard, the `pred_mask` branch (uint8
zeros when no mask was returned, thresholded booleans otherwise) and the
three artifact writes.  A failure yields `Except.error` and produces no
artifact, matching the source where the exception fires before any write
for that image. -/
def processImage (imageSize : ℕ) (evalModel : EvalModel) (img : Image) :
    Except PipeError Artifacts :=
  if img.H = 0 ∨ img.W = 0 then .error .invalidImage
  else
    match evalModel (samEncode imageSize img) (resizedShape imageSize img)
        (img.H, img.W) with
    | .error e => .error e
    | .ok pred_masks =>
      if 1 < pred_masks.length then .error .multipleMask
      else
        let pm : PredMask :=
          match pred_masks with
          | [] => .uintZeros img.H img.W
          | m :: _ => .boolMask m.h m.w (fun i j => thresholdScore (m.scores i j))
        .ok { imageOut := img, finalMask := pm, visOut := buildVis img pm }

/-- The outer per-image loop.  There is no exception handler around the
body: a failing image yields its error and the loop stops; artifacts of
images processed before the failure have already been written and are
returned. -/
def runLoop (imageSize : ℕ) (evalModel : EvalModel) :
    List Image → List Artifacts × Option PipeError
  | [] => ([], none)
  | img :: rest =>
    match processImage imageSize evalModel img with
    | .ok art =>
        let r := runLoop imageSize evalModel rest
        (art :: r.1, r.2)
    | .error e => ([], some e)

/-- Enumeration order of the driver:
`img_paths = [os.path.join(input_dir, img) for img in os.listdir(input_dir)]`
followed by `img_paths.sort()`.  `listing` is whatever order the file
system returned. -/
def imgPaths (input_dir : String) (listing : List String) : List String :=
  (listing.map (fun img => input_dir ++ "/" ++ img)).insertionSort (fun a b => a ≤ b)

/-- A concrete 1×1 image with every channel value 200. -/
def img1 : Image := { H := 1, W := 1, px := fun _ _ _ => 200 }

/-- A concrete 2×2 image with every channel value 10. -/
def img2 : Image := { H := 2, W := 2, px := fun _ _ _ => 10 }

/-- A concrete 4096×4096 image, used to exercise the cropping path. -/
def imgBig : Image := { H := 4096, W := 4096, px := fun _ _ _ => 7 }

/-- A concrete 1×1 tensor with all entries 0. -/
def exTensor : Tensor3 := { C := 3, H := 1, W := 1, data := fun _ _ _ => 0 }

/-- A concrete boolean mask selecting only pixel (0, 0). -/
def mEx : ℕ → ℕ → Bool := fun i j => decide (i = 0 ∧ j = 0)

/-- A model stub that returns two masks for 1-row images and none
otherwise. -/
def evalStub : EvalModel := fun _ _ os =>
  if os.1 = 1 then .ok [⟨1, 1, fun _ _ => 1⟩, ⟨1, 1, fun _ _ => 1⟩] else .ok []

/-- A model stub that always returns two masks. -/
def evalTwo : EvalModel := fun _ _ _ => .ok [⟨2, 2, fun _ _ => 1⟩, ⟨2, 2, fun _ _ => 1⟩]

/-- A model stub that always returns no mask. -/
def evalZero : EvalModel := fun _ _ _ => .ok []

/-- A model stub that returns exactly one mask, projected to the supplied
original size, with all scores +1. -/
def evalProj : EvalModel := fun _ _ os => .ok [⟨os.1, os.2, fun _ _ => 1⟩]

/-- The artifacts produced by processing `img2` under `evalProj`. -/
def artProj : Artifacts :=
  { imageOut := img2
    finalMask := .boolMask 2 2 (fun _ _ => thresholdScore 1)
    visOut := buildVis img2 (.boolMask 2 2 (fun _ _ => thresholdScore 1)) }

/-- C7: thresholding the predicted mask is a pure function of each score:
a score strictly greater than 0 maps to true, a score less than or equal
to 0 — including exactly 0 — maps to false. -/
theorem threshold_at_zero :
    (∀ q : ℚ, (thresholdScore q = true ↔ 0 < q) ∧
      (thresholdScore q = false ↔ q ≤ 0)) ∧
    thresholdScore 0 = false := by
  constructor
  · intro q
    constructor
    · simp [thresholdScore]
    · simp [thresholdScore, not_lt]
  · decide

/-- C7 witness: thresholding evaluated at the boundary score 0 and at a
positive score. -/
theorem threshold_at_zero_witness :
    thresholdScore 0 = false ∧ thresholdScore 1 = true :=
  ⟨(threshold_at_zero.1 0).2.mpr le_rfl, (threshold_at_zero.1 1).1.mpr one_pos⟩

/-- C3: for every channel-first tensor with spatial dimensions at most
the canvas size T, preprocess keeps the channel count, returns a T×T
spatial canvas, and the entry at (c, i, j) is the normalized input value
for i below the height and j below the width and zero elsewhere: padding
only ever extends the bottom and right edges, the content stays at
(0, 0). -/
theorem preprocess_pads_bottom_right (x : Tensor3) (T : ℕ)
    (hh : x.H ≤ T) (hw : x.W ≤ T) :
    (preprocess x pixel_mean pixel_std T).C = x.C ∧
    (preprocess x pixel_mean pixel_std T).H = T ∧
    (preprocess x pixel_mean pixel_std T).W = T ∧
    ∀ c i j,
      (preprocess x pixel_mean pixel_std T).data c i j =
        if i < x.H ∧ j < x.W then (x.data c i j - pixel_mean c) / pixel_std c
        else 0 := by
  refine ⟨rfl, ?_, ?_, fun c i j => rfl⟩
  · show ((x.H : ℤ) + ((T : ℤ) - (x.H : ℤ))).toNat = T
    omega
  · show ((x.W : ℤ) + ((T : ℤ) - (x.W : ℤ))).toNat = T
    omega

/-- C3 witness: preprocess evaluated on a concrete 1×1 tensor with canvas
size 2. -/
theorem preprocess_pads_bottom_right_witness :
    (preprocess exTensor pixel_mean pixel_std 2).H = 2 ∧
    (preprocess exTensor pixel_mean pixel_std 2).data 0 1 1 = 0 := by
  refine ⟨(preprocess_pads_bottom_right exTensor 2 (by decide) (by decide)).2.1, ?_⟩
  rw [(preprocess_pads_bottom_right exTensor 2 (by decide) (by decide)).2.2.2 0 1 1]
  simp [exTensor]

/-- C10: the SAM-path call site never passes the configured image size to
preprocess, whose pad amounts are computed against its own default canvas
1024: the encoded tensor is 1024×1024 for EVERY configured image size;
content survives at its original index only below row/column 1024 and is
zero elsewhere; whenever the resized image is taller (or wider) than
1024 the bottom (right) pad amount is negative and the content is cropped
(the output is strictly shorter than the resized content); and for any
configured image size other than 1024 the SAM canvas and the resize
target disagree. -/
theorem samEncode_canvas_always_1024 (imageSize : ℕ) (img : Image) :
    (samEncode imageSize img).H = 1024 ∧
    (samEncode imageSize img).W = 1024 ∧
    (∀ c i j,
      (samEncode imageSize img).data c i j =
        if i < (resizeImage imageSize img).H ∧ j < (resizeImage imageSize img).W
        then (((resizeImage imageSize img).px i j c : ℚ) - pixel_mean c) / pixel_std c
        else 0) ∧
    (1024 < (resizeImage imageSize img).H →
      (1024 : ℤ) - ((resizeImage imageSize img).H : ℤ) < 0 ∧
      (samEncode imageSize img).H < (resizeImage imageSize img).H) ∧
    (1024 < (resizeImage imageSize img).W →
      (1024 : ℤ) - ((resizeImage imageSize img).W : ℤ) < 0 ∧
      (samEncode imageSize img).W < (resizeImage imageSize img).W) ∧
    (imageSize ≠ 1024 → (samEncode imageSize img).H ≠ imageSize) := by
  have hH : (samEncode imageSize img).H = 1024 := by
    show (((resizeImage imageSize img).H : ℤ) +
      ((1024 : ℤ) - ((resizeImage imageSize img).H : ℤ))).toNat = 1024
    omega
  have hW : (samEncode imageSize img).W = 1024 := by
    show (((resizeImage imageSize img).W : ℤ) +
      ((1024 : ℤ) - ((resizeImage imageSize img).W : ℤ))).toNat = 1024
    omega
  refine ⟨hH, hW, fun c i j => rfl, ?_, ?_, ?_⟩
  · intro h
    refine ⟨by omega, ?_⟩
    rw [hH]; exact h
  · intro h
    refine ⟨by omega, ?_⟩
    rw [hW]; exact h
  · intro h
    rw [hH]; omega

/-- C10 witness: with a configured image size of 2048 a 4096×4096 image is
resized to 2048×2048, yet the encoded tensor is 1024×1024 — strictly
smaller than the resized content, which was therefore cropped. -/
theorem samEncode_canvas_always_1024_witness :
    (samEncode 2048 imgBig).H = 1024 ∧
    (samEncode 2048 imgBig).H < (resizeImage 2048 imgBig).H ∧
    (samEncode 2048 imgBig).H ≠ 2048 :=
  ⟨(samEncode_canvas_always_1024 2048 imgBig).1,
   ((samEncode_canvas_always_1024 2048 imgBig).2.2.2.1 (by decide)).2,
   (samEncode_canvas_always_1024 2048 imgBig).2.2.2.2.2 (by decide)⟩

/-- C5: with a boolean FinalMask, compositing keeps the image dimensions,
replaces every pixel the mask selects by the 0.5/0.5 alpha blend of the
original pixel with the fixed highlight color (evaluated exactly in
float64 and truncated by the uint8 store, i.e. (v + highlight)/2 in
natural division), leaves every unselected pixel exactly equal to the
original, and therefore an all-false mask yields a visualization
pixel-identical to the ingested image. -/
theorem compositing_modifies_only_mask (img : Image) (h w : ℕ) (m : ℕ → ℕ → Bool) :
    (buildVis img (.boolMask h w m)).H = img.H ∧
    (buildVis img (.boolMask h w m)).W = img.W ∧
    (∀ i j c, m i j = true →
      (buildVis img (.boolMask h w m)).px i j c =
        (img.px i j c + highlight c) / 2) ∧
    (∀ i j c, m i j = false →
      (buildVis img (.boolMask h w m)).px i j c = img.px i j c) ∧
    ((∀ i j, m i j = false) →
      ∀ i j c, (buildVis img (.boolMask h w m)).px i j c = img.px i j c) := by
  refine ⟨rfl, rfl, ?_, ?_, ?_⟩
  · intro i j c hm
    simp [buildVis, blendHighlight, hm]
  · intro i j c hm
    simp [buildVis, hm]
  · intro hall i j c
    simp [buildVis, hall i j]

/-- C5 witness: compositing a concrete 2×2 image with a mask selecting
only pixel (0, 0). -/
theorem compositing_modifies_only_mask_witness :
    (buildVis img2 (.boolMask 2 2 mEx)).px 0 0 0 =
      (img2.px 0 0 0 + highlight 0) / 2 ∧
    (buildVis img2 (.boolMask 2 2 mEx)).px 1 1 0 = img2.px 1 1 0 :=
  ⟨(compositing_modifies_only_mask img2 2 2 mEx).2.2.1 0 0 0 (by decide),
   (compositing_modifies_only_mask img2 2 2 mEx).2.2.2.1 1 1 0 (by decide)⟩

/-- C1 (divergence witness at the failing input): when the external model
returns zero masks for the 1×1 image img1 — every channel value 200 — the
pipeline does synthesize the all-zero fallback mask at the original
resolution and the written mask grid is all zero, but the visualization is
NOT pixel-identical to the ingested image: the all-zero uint8 fallback
mask is an integer index array, so numpy fancy indexing assigns row 0 of
the visualization the half-brightness value 100 in place of 200. -/
theorem zero_mask_fallback_divergence :
    processImage 1024 evalZero img1 =
      .ok { imageOut := img1, finalMask := .uintZeros 1 1,
            visOut := buildVis img1 (.uintZeros 1 1) } ∧
    (∀ i j, maskImage (.uintZeros 1 1) i j = 0) ∧
    PredMask.dims (.uintZeros 1 1) = (1, 1) ∧
    (buildVis img1 (.uintZeros 1 1)).px 0 0 0 = 100 ∧
    img1.px 0 0 0 = 200 :=
  ⟨rfl, fun _ _ => rfl, rfl, by decide, rfl⟩

/-- C2 counterexample: the per-image loop has no exception handler, so a
failure does NOT let the loop continue to the next image.  Concretely,
under a model stub that rejects 1-row images with two masks and returns
none otherwise, running the loop on [img1, img2] stops at img1 with a
MultipleMaskError and produces no artifact at all — in particular none
for img2 — even though img2 on its own is processed successfully. -/
theorem loop_abort_counterexample :
    (runLoop 1024 evalStub [img1, img2]).1.length = 0 ∧
    (runLoop 1024 evalStub [img1, img2]).2 = some .multipleMask ∧
    (runLoop 1024 evalStub [img2]).1.length = 1 ∧
    (runLoop 1024 evalStub [img2]).2 = none :=
  ⟨rfl, rfl, rfl, rfl⟩

/-- C2 (amended): a failure while processing one image aborts the
remainder of the run, not just that image: the loop returns the artifacts
of exactly the images processed before the failing one (their state is
unaffected), reports the error, and never processes the images after the
failure. -/
theorem loop_aborts_run_at_failure (imageSize : ℕ) (evalModel : EvalModel)
    (pre : List Image) (img : Image) (rest : List Image) (e : PipeError)
    (hpre : ∀ p ∈ pre, ∃ a, processImage imageSize evalModel p = .ok a)
    (herr : processImage imageSize evalModel img = .error e) :
    runLoop imageSize evalModel (pre ++ img :: rest) =
      ((runLoop imageSize evalModel pre).1, some e) := by
  induction pre with
  | nil => simp [runLoop, herr]
  | cons p ps ih =>
    obtain ⟨a, ha⟩ := hpre p (List.mem_cons_self p ps)
    have hps : ∀ q ∈ ps, ∃ a, processImage imageSize evalModel q = .ok a :=
      fun q hq => hpre q (List.mem_cons_of_mem p hq)
    simp [runLoop, ha, ih hps]

/-- C2 witness: the loop over [img2, img1, img2] under the stub aborts at
img1 keeping exactly the artifacts of the leading [img2]. -/
theorem loop_aborts_run_at_failure_witness :
    runLoop 1024 evalStub ([img2] ++ img1 :: [img2]) =
      ((runLoop 1024 evalStub [img2]).1, some .multipleMask) :=
  loop_aborts_run_at_failure 1024 evalStub [img2] img1 [img2] .multipleMask
    (by
      intro p hp
      simp only [List.mem_singleton] at hp
      subst hp
      exact ⟨_, rfl⟩)
    rfl

/-- C4: for every image whose dimensions are nonzero, if the external
model responds with more than one predicted mask the pipeline fails fast
with MultipleMaskError — producing no artifact for that image, since an
error carries none — while a response with zero or one mask is accepted
and processing of that image completes. -/
theorem multi_mask_rejected (imageSize : ℕ) (evalModel : EvalModel)
    (img : Image) (h0 : ¬(img.H = 0 ∨ img.W = 0)) (ms : List ScoreMask)
    (hcall : evalModel (samEncode imageSize img) (resizedShape imageSize img)
      (img.H, img.W) = .ok ms) :
    (1 < ms.length →
      processImage imageSize evalModel img = .error .multipleMask) ∧
    (ms.length ≤ 1 → (processImage imageSize evalModel img).isOk = true) := by
  constructor
  · intro hlen
    simp [processImage, h0, hcall, hlen]
  · intro hlen
    have hgt : ¬ 1 < ms.length := by omega
    simp [processImage, h0, hcall, hgt, Except.isOk, Except.toBool]

/-- C4 witness: a two-mask response for img2 is rejected with
MultipleMaskError, a one-mask response and a zero-mask response are
accepted. -/
theorem multi_mask_rejected_witness :
    processImage 1024 evalTwo img2 = .error .multipleMask ∧
    (processImage 1024 evalProj img2).isOk = true ∧
    (processImage 1024 evalZero img2).isOk = true :=
  ⟨(multi_mask_rejected 1024 evalTwo img2 (by decide) _ rfl).1 (by decide),
   (multi_mask_rejected 1024 evalProj img2 (by decide) _ rfl).2 (by decide),
   (multi_mask_rejected 1024 evalZero img2 (by decide) _ rfl).2 (by decide)⟩

/-- C6: assuming the external model returns masks projected to the
supplied original size, the FinalMask of every successfully processed
image has dimensions exactly equal to the original (height, width) — on
the predicted-mask path and on the no-mask fallback path alike. -/
theorem finalMask_dims_eq_original (imageSize : ℕ) (evalModel : EvalModel)
    (img : Image)
    (hproj : ∀ t rs os ms, evalModel t rs os = .ok ms →
      ∀ m ∈ ms, m.h = os.1 ∧ m.w = os.2)
    (art : Artifacts)
    (hok : processImage imageSize evalModel img = .ok art) :
    art.finalMask.dims = (img.H, img.W) := by
  by_cases h0 : img.H = 0 ∨ img.W = 0
  · simp [processImage, h0] at hok
  · cases hcall : evalModel (samEncode imageSize img)
      (resizedShape imageSize img) (img.H, img.W) with
    | error e => simp [processImage, h0, hcall] at hok
    | ok ms =>
      by_cases hlen : 1 < ms.length
      · simp [processImage, h0, hcall, hlen] at hok
      · cases ms with
        | nil =>
          simp [processImage, h0, hcall, hlen] at hok
          rw [← hok]
          rfl
        | cons m t =>
          cases t with
          | cons m2 t2 => simp at hlen
          | nil =>
            have hm := hproj _ _ _ _ hcall m (List.mem_cons_self m [])
            simp [processImage, h0, hcall] at hok
            rw [← hok]
            simp [PredMask.dims, hm.1, hm.2]

/-- C6 witness: under the projecting one-mask stub, processing img2 yields
artifacts whose FinalMask has the original dimensions (2, 2); the
counterpart with zero masks is covered by the fallback record in the C1
evaluation. -/
theorem finalMask_dims_eq_original_witness :
    artProj.finalMask.dims = (2, 2) :=
  finalMask_dims_eq_original 1024 evalProj img2
    (by
      intro t rs os ms h m hm
      simp only [evalProj, Except.ok.injEq] at h
      subst h
      simp only [List.mem_singleton] at hm
      subst hm
      exact ⟨rfl, rfl⟩)
    artProj rfl

/-- Appending a common string on the left is strictly monotone for the
lexicographic order. -/
theorem string_append_lt (p : String) {a b : String} (hab : a < b) :
    p ++ a < p ++ b := by
  rw [String.lt_iff_toList_lt] at hab ⊢
  have key : ∀ s t : String, (s ++ t).toList = s.toList ++ t.toList :=
    fun s t => String.data_append s t
  rw [key, key]
  have hlex : List.Lex (fun x y => x < y) a.toList b.toList := hab
  show List.Lex (fun x y => x < y) (p.toList ++ a.toList) (p.toList ++ b.toList)
  induction p.toList with
  | nil => simpa using hlex
  | cons c cs ih => exact List.Lex.cons ih

/-- Appending a common string on the left is monotone for the
lexicographic order. -/
theorem string_append_le (p : String) {a b : String} (hab : a ≤ b) :
    p ++ a ≤ p ++ b := by
  rcases lt_or_eq_of_le hab with h | h
  · exact le_of_lt (string_append_lt p h)
  · rw [h]

/-- C8: the driver joins the directory listing onto the input directory
and sorts; the resulting processing order is independent of the order the
file system enumerated the directory in (any permutation of the listing
yields the same order), and it is exactly the lexicographically sorted
filename order with the directory joined on. -/
theorem imgPaths_sorted_and_deterministic (d : String) (l1 l2 : List String)
    (hperm : l1.Perm l2) :
    imgPaths d l1 = imgPaths d l2 ∧
    imgPaths d l1 =
      (l1.insertionSort (fun a b => a ≤ b)).map (fun img => d ++ "/" ++ img) := by
  constructor
  · exact List.eq_of_perm_of_sorted
      ((List.perm_insertionSort _ _).trans
        ((hperm.map _).trans (List.perm_insertionSort _ _).symm))
      (List.sorted_insertionSort _ _)
      (List.sorted_insertionSort _ _)
  · exact List.eq_of_perm_of_sorted
      ((List.perm_insertionSort _ _).trans
        (((List.perm_insertionSort _ l1).map _).symm))
      (List.sorted_insertionSort _ _)
      (List.Pairwise.map _
        (fun a b hab => string_append_le (d ++ "/") hab)
        (List.sorted_insertionSort _ l1))

/-- C8 witness: a two-file directory handed over in reversed enumeration
order is still processed as a.jpg then b.jpg. -/
theorem imgPaths_sorted_and_deterministic_witness :
    imgPaths "in" ["b.jpg", "a.jpg"] = imgPaths "in" ["a.jpg", "b.jpg"] ∧
    imgPaths "in" ["b.jpg", "a.jpg"] =
      ((["b.jpg", "a.jpg"] : List String).insertionSort (fun a b => a ≤ b)).map
        (fun img => "in" ++ "/" ++ img) :=
  imgPaths_sorted_and_deterministic "in" ["b.jpg", "a.jpg"] ["a.jpg", "b.jpg"]
    (List.Perm.swap "a.jpg" "b.jpg" [])

/-- Rounding half up after scaling the longest side M itself lands exactly
on the target T. -/
theorem rside_max_eq (T M : ℕ) (hM : 0 < M) : (2 * M * T + M) / (2 * M) = T := by
  have h1 : 2 * M * T + M = M * (2 * T + 1) := by ring
  have h2 : 2 * M = M * 2 := by ring
  rw [h1, h2, Nat.mul_div_mul_left _ _ hM]
  omega

/-- Rounding half up after scaling a side at most M stays at most the
target T. -/
theorem rside_le_target (T m M : ℕ) (hM : 0 < M) (hm : m ≤ M) :
    (2 * m * T + M) / (2 * M) ≤ T := by
  rw [Nat.div_le_iff_le_mul_add_pred (by omega : 0 < 2 * M)]
  have h1 : 2 * m * T ≤ 2 * M * T := Nat.mul_le_mul_right T (by omega)
  calc 2 * m * T + M ≤ 2 * M * T + M := Nat.add_le_add_right h1 M
    _ ≤ 2 * M * T + (2 * M - 1) := Nat.add_le_add_left (by omega) _

/-- The half-up rounded scaled side differs from the exact rational
scaling by at most one half. -/
theorem rside_close (T m M : ℕ) (hM : 0 < M) :
    |(((2 * m * T + M) / (2 * M) : ℕ) : ℚ) - (m : ℚ) * ((T : ℚ) / (M : ℚ))| ≤ 1 / 2 := by
  have hb : 0 < 2 * M := by omega
  have hdm := Nat.div_add_mod (2 * m * T + M) (2 * M)
  set q := (2 * m * T + M) / (2 * M) with hq
  set r := (2 * m * T + M) % (2 * M) with hr
  have hrlt : r < 2 * M := Nat.mod_lt _ hb
  have hMQ : (0 : ℚ) < (M : ℚ) := by exact_mod_cast hM
  have hMne : (M : ℚ) ≠ 0 := ne_of_gt hMQ
  have hcast : 2 * (M : ℚ) * (q : ℚ) + (r : ℚ) = 2 * (m : ℚ) * (T : ℚ) + (M : ℚ) := by
    exact_mod_cast hdm
  have hmul : (m : ℚ) * ((T : ℚ) / (M : ℚ)) * (2 * (M : ℚ)) = 2 * (m : ℚ) * (T : ℚ) := by
    field_simp
    ring
  have key : (((q : ℚ)) - (m : ℚ) * ((T : ℚ) / (M : ℚ))) * (2 * (M : ℚ)) =
      (M : ℚ) - (r : ℚ) := by
    calc ((q : ℚ) - (m : ℚ) * ((T : ℚ) / (M : ℚ))) * (2 * (M : ℚ))
        = 2 * (M : ℚ) * (q : ℚ) - (m : ℚ) * ((T : ℚ) / (M : ℚ)) * (2 * (M : ℚ)) := by
          ring
      _ = 2 * (M : ℚ) * (q : ℚ) - 2 * (m : ℚ) * (T : ℚ) := by rw [hmul]
      _ = (M : ℚ) - (r : ℚ) := by linarith [hcast]
  have h2M : (0 : ℚ) < 2 * (M : ℚ) := by linarith
  have hqd : (q : ℚ) - (m : ℚ) * ((T : ℚ) / (M : ℚ)) =
      ((M : ℚ) - (r : ℚ)) / (2 * (M : ℚ)) :=
    (eq_div_iff (ne_of_gt h2M)).mpr key
  rw [hqd, abs_div, abs_of_pos h2M]
  have habs : |(M : ℚ) - (r : ℚ)| ≤ (M : ℚ) := by
    rw [abs_le]
    constructor
    · have h1 : (r : ℚ) ≤ 2 * (M : ℚ) := by exact_mod_cast le_of_lt hrlt
      linarith
    · have h2 : (0 : ℚ) ≤ (r : ℚ) := by positivity
      linarith
  calc |(M : ℚ) - (r : ℚ)| / (2 * (M : ℚ)) ≤ (M : ℚ) / (2 * (M : ℚ)) :=
        div_le_div_of_nonneg_right habs (le_of_lt h2M)
    _ = 1 / 2 := by
        rw [div_eq_div_iff (by linarith) (by norm_num)]
        ring

/-- C9: for every image with nonzero height and width the spec-modelled
Geometric Transform scales both sides by s = T / max(height, width): the
longer resized side equals T exactly and each resized side is within one
half of its exact rational scaling, so the aspect ratio is preserved up
to rounding. -/
theorem resize_longest_side (T h w : ℕ) (hh : 0 < h) (hw : 0 < w) :
    max (resizeShape T h w).1 (resizeShape T h w).2 = T ∧
    |((resizeShape T h w).1 : ℚ) - (h : ℚ) * ((T : ℚ) / ((max h w : ℕ) : ℚ))| ≤ 1 / 2 ∧
    |((resizeShape T h w).2 : ℚ) - (w : ℚ) * ((T : ℚ) / ((max h w : ℕ) : ℚ))| ≤ 1 / 2 := by
  have hM : 0 < max h w := lt_of_lt_of_le hh (le_max_left h w)
  have e1 : (resizeShape T h w).1 = (2 * h * T + max h w) / (2 * max h w) := rfl
  have e2 : (resizeShape T h w).2 = (2 * w * T + max h w) / (2 * max h w) := rfl
  refine ⟨?_, ?_, ?_⟩
  · rw [e1, e2]
    rcases Nat.le_total h w with hle | hle
    · have hmax : max h w = w := Nat.max_eq_right hle
      rw [hmax]
      rw [rside_max_eq T w hw]
      exact Nat.max_eq_right (rside_le_target T h w hw hle)
    · have hmax : max h w = h := Nat.max_eq_left hle
      rw [hmax]
      rw [rside_max_eq T h hh]
      exact Nat.max_eq_left (rside_le_target T w h hh hle)
  · rw [e1]
    exact rside_close T h (max h w) hM
  · rw [e2]
    exact rside_close T w (max h w) hM

/-- C9 witness: the end-to-end scenario shape — a 480×640 image with
target 1024 resizes to 768×1024, whose longer side is exactly 1024. -/
theorem resize_longest_side_witness :
    max (resizeShape 1024 480 640).1 (resizeShape 1024 480 640).2 = 1024 ∧
    resizeShape 1024 480 640 = (768, 1024) :=
  ⟨(resize_longest_side 1024 480 640 (by decide) (by decide)).1,
   by decide⟩

end LISA
